import Mathlib

/-!
Verification development for the script-generation core of the
Yofardev Toolbox repository (`src/core/llm_generator.py`):
the structural validator (`_check_anti_patterns`, `_validate_script`,
`_extract_metadata`, `detect_external_packages`) and the generation
orchestrator (`generate_script`).

The Python standard-library services the code calls — `ast.parse`
(the Python parser) and the JSON decoding performed by
`_parse_json_response` — are not part of the repository; they appear
here as explicit function parameters (`parse`, `jsonParse`) over an
embedded Python-AST type and an embedded JSON-fields record, so every
theorem quantifies over them and specialises them in witnesses.
-/

namespace Toolbox

/-! ### Character / substring utilities

`re.search(pattern, code, re.IGNORECASE)` on the ASCII-literal patterns of
`_check_anti_patterns` is modelled by lowering the subject string
(ASCII `A`-`Z` only, which covers every letter occurring in the patterns)
and matching lowercase literals. -/

/-- ASCII lowering of one character, as Python case-insensitive matching
treats the ASCII range. -/
def lowerChar (c : Char) : Char :=
  if 65 ≤ c.toNat ∧ c.toNat ≤ 90 then Char.ofNat (c.toNat + 32) else c

/-- ASCII lowering of a string. -/
def lowerStr (s : String) : String :=
  String.mk (s.toList.map lowerChar)

/-- `pMatch sub l` : `sub` is a prefix of `l` (character lists). -/
def pMatch : List Char → List Char → Bool
  | [], _ => true
  | _ :: _, [] => false
  | a :: as, b :: bs => a == b && pMatch as bs

/-- `subOccurs sub l` : `sub` occurs as a contiguous substring of `l`. -/
def subOccurs (sub : List Char) : List Char → Bool
  | [] => sub.isEmpty
  | c :: t => pMatch sub (c :: t) || subOccurs sub t

/-- String-level substring containment (`sub in hay` in Python terms). -/
def containsSub (hay sub : String) : Bool :=
  subOccurs sub.toList hay.toList

/-- The two Python quote characters usable around a string literal. -/
def quoteChars : List Char := ['\'', '"']

/-- `containsQuoted s lit` : `s` contains `lit` surrounded by (any
combination of) quote characters — the meaning of the regex
`['\"]lit['\"]` as a substring search. -/
def containsQuoted (s lit : String) : Bool :=
  quoteChars.any fun q1 =>
    quoteChars.any fun q2 =>
      containsSub s (String.mk (q1 :: lit.toList ++ [q2]))

/-- `prefixThenQuoted s pre lit` : `s` contains `pre` followed by a quote
character followed by `lit` — the meaning of regexes such as
`mkdir\(['\"]static`. -/
def prefixThenQuoted (s pre lit : String) : Bool :=
  quoteChars.any fun q =>
    containsSub s (String.mk (pre.toList ++ q :: lit.toList))

/-- ASCII whitespace characters matched by `\s`. -/
def wsChars : List Char := [' ', '\t', '\n', '\x0d', '\x0b', '\x0c']

/-- Drop leading whitespace. -/
def skipWs : List Char → List Char
  | [] => []
  | c :: t => if wsChars.contains c then skipWs t else c :: t

/-- Word characters matched by `\w` on an already-lowered string. -/
def wordChar (c : Char) : Bool :=
  (97 ≤ c.toNat && c.toNat ≤ 122) || (48 ≤ c.toNat && c.toNat ≤ 57) || c == '_'

/-- Matcher for the regex `static_folder\s*=`: an occurrence of
`static_folder` followed by optional whitespace and `=`. -/
def staticFolderAssign : List Char → Bool
  | [] => false
  | c :: t =>
    (pMatch "static_folder".toList (c :: t) &&
      (match skipWs (List.drop 13 (c :: t)) with
        | '=' :: _ => true
        | _ => false)) || staticFolderAssign t

/-- Matcher for the regex `open\(['\"]\w+/` on a lowered string: `open(`
then a quote, one or more word characters, then `/`. -/
def openRelPath : List Char → Bool
  | [] => false
  | c :: t =>
    (pMatch "open(".toList (c :: t) &&
      (match List.drop 5 (c :: t) with
        | q :: rest =>
          quoteChars.contains q &&
            (let w := rest.takeWhile wordChar
             let r := rest.dropWhile wordChar
             !w.isEmpty &&
               (match r with
                 | '/' :: _ => true
                 | _ => false))
        | [] => false)) || openRelPath t

/-! ### `_check_anti_patterns` -/

/-- The six forbidden quoted directory literals of the claim set (the
source also forbids `static\` with a backslash, kept in the full list
below). -/
def quotedDirLits : List String :=
  ["static/", "output/", "outputs/", "temp/", "tmp/", "data/"]

/-- The anti-pattern list of `_check_anti_patterns`, in source order:
each entry is a matcher on the lowered code string (modelling
`re.search(.., re.IGNORECASE)`) paired with the human-readable
description. -/
def anti_patterns : List ((String → Bool) × String) :=
  [ (fun low => containsQuoted low "static/", "hardcoded 'static/' directory path"),
    (fun low => containsQuoted low "static\\", "hardcoded 'static\\' directory path"),
    (fun low => containsQuoted low "output/", "hardcoded 'output/' directory path"),
    (fun low => containsQuoted low "outputs/", "hardcoded 'outputs/' directory path"),
    (fun low => containsQuoted low "temp/", "hardcoded 'temp/' directory path"),
    (fun low => containsQuoted low "tmp/", "hardcoded 'tmp/' directory path"),
    (fun low => containsQuoted low "data/", "hardcoded 'data/' directory path"),
    (fun low => prefixThenQuoted low "mkdir(" "static", "creating 'static' directory"),
    (fun low => prefixThenQuoted low "makedirs(" "static", "creating 'static' directory"),
    (fun low => prefixThenQuoted low "path(" "static", "using 'static' Path"),
    (fun low => containsSub low "app.static_folder", "Flask static_folder reference"),
    (fun low => staticFolderAssign low.toList, "setting static_folder"),
    (fun low => openRelPath low.toList, "opening file with relative path (use absolute paths)"),
    (fun low => containsSub low "~static" || containsSub low "~/static", "user directory with 'static'") ]

/-- `_check_anti_patterns`: scan the anti-pattern list in order; the first
match yields `(False, message)`, otherwise `(True, "")`. -/
def check_anti_patterns (code : String) : Bool × String :=
  let low := lowerStr code
  match anti_patterns.find? (fun p => p.1 low) with
  | some p =>
      (false, "Forbidden pattern detected: " ++ p.2 ++
        ". Use ~/Downloads/<script_name_slug>/timestamp_output/ for all outputs.")
  | none => (true, "")

/-! ### Embedded Python AST

Only the node shapes `_validate_script`, `_extract_metadata` and
`detect_external_packages` inspect are distinguished; everything else is
`other`.  `ast.parse` itself is the Python parser and is passed to the
functions below as a parameter `parse : String → Except String PyModule`
(`Except.error` = the `SyntaxError` branch). -/

/-- Python constant values (`ast.Constant.value`), distinguishing strings. -/
inductive PyConst where
  | str (s : String)
  | intC (n : Int)
  | noneC
  | boolC (b : Bool)
deriving DecidableEq

/-- Python expressions, distinguishing only names and constants. -/
inductive PyExpr where
  | name (id : String)
  | const (c : PyConst)
  | other
deriving DecidableEq

/-- Python statements, distinguishing the node kinds the validator
inspects.  `functionDef` and `classDef` carry their bodies so that
`ast.walk` can descend into them. -/
inductive PyStmt where
  | assign (targets : List PyExpr) (value : PyExpr)
  | functionDef (fname : String) (body : List PyStmt)
  | classDef (cname : String) (body : List PyStmt)
  | importStmt (names : List String)
  | importFrom (module : Option String) (names : List String)
  | exprStmt (e : PyExpr)
  | other

/-- A Python module: `ast.Module.body`. -/
structure PyModule where
  body : List PyStmt

mutual
/-- All statement nodes reachable from `s`, the node itself included:
the statement-level content of `ast.walk` (which enumerates
breadth-first; every use below reads the result as a set, so the
traversal order is irrelevant). -/
def walkStmt : PyStmt → List PyStmt
  | .functionDef fname body => .functionDef fname body :: walkStmts body
  | .classDef cname body => .classDef cname body :: walkStmts body
  | s => [s]

/-- `walkStmt` over a statement list. -/
def walkStmts : List PyStmt → List PyStmt
  | [] => []
  | s :: rest => walkStmt s ++ walkStmts rest
end

/-- All nodes of a module, as `ast.walk(tree)` restricted to statements. -/
def walkModule (tree : PyModule) : List PyStmt :=
  walkStmts tree.body

/-! ### `_validate_script` (spec name: `validate_structure`) -/

/-- The required module-level variables, in the order of the source's set
literal (`', '.join` over a Python `set` emits an unspecified order; this
fixed order is one determinisation of it). -/
def required_vars : List String := ["NAME", "DESCRIPTION", "INPUT_TYPES", "PARAMETERS"]

/-- The required functions, in source order. -/
def required_functions : List String := ["main", "process_files"]

/-- Names assigned by `ast.Assign` nodes anywhere `ast.walk` reaches
(the loop `for node in ast.walk(tree): if isinstance(node, ast.Assign)`). -/
def collectAssignedNames (tree : PyModule) : List String :=
  (walkModule tree).foldr
    (fun s acc =>
      match s with
      | .assign targets _ =>
          (targets.filterMap fun t =>
            match t with
            | .name id => some id
            | _ => none) ++ acc
      | _ => acc) []

/-- Function names of `ast.FunctionDef` nodes anywhere `ast.walk` reaches. -/
def collectFunctionNames (tree : PyModule) : List String :=
  (walkModule tree).foldr
    (fun s acc =>
      match s with
      | .functionDef fname _ => fname :: acc
      | _ => acc) []

/-- `required_vars - found_vars` (the set difference, determinised in the
order of `required_vars`). -/
def missingVarsOf (tree : PyModule) : List String :=
  required_vars.filter fun v => !((collectAssignedNames tree).contains v)

/-- `required_functions - found_functions`. -/
def missingFunctionsOf (tree : PyModule) : List String :=
  required_functions.filter fun f => !((collectFunctionNames tree).contains f)

/-- The required-symbol check of `_validate_script` on a parsed tree:
missing variables are reported first (comma-joined), then missing
functions (comma-joined); when both sets are satisfied the source
re-`compile`s the code (which succeeds whenever `ast.parse` did) and
returns valid. -/
def validate_structure (tree : PyModule) : Bool × String :=
  let missing_vars := missingVarsOf tree
  if missing_vars.isEmpty then
    let missing_funcs := missingFunctionsOf tree
    if missing_funcs.isEmpty then (true, "")
    else (false, "Missing required function(s): " ++ String.intercalate ", " missing_funcs)
  else
    (false, "Missing required variable(s): " ++ String.intercalate ", " missing_vars)

/-- `_validate_script`: anti-pattern check first; only when clean is the
code parsed (`parse` models `ast.parse`; its `SyntaxError` branch
becomes the "Syntax error: " result) and the structural check run. -/
def validate_script (parse : String → Except String PyModule) (code : String) :
    Bool × String :=
  match check_anti_patterns code with
  | (false, err) => (false, err)
  | _ =>
    match parse code with
    | .error e => (false, "Syntax error: " ++ e)
    | .ok tree => validate_structure tree

/-! ### `_extract_metadata` -/

/-- One target-update step of `_extract_metadata`: an `ast.Assign` target
that is the name `NAME` (resp. `DESCRIPTION`) with a string-constant value
overwrites the corresponding field. -/
def metaUpdTarget (value : PyExpr) (acc : String × String) (t : PyExpr) :
    String × String :=
  match t, value with
  | .name id, .const (.str sv) =>
      if id == "NAME" then (sv, acc.2)
      else if id == "DESCRIPTION" then (acc.1, sv)
      else acc
  | _, _ => acc

/-- One statement-update step of `_extract_metadata` (the per-`ast.Assign`
loop over its targets). -/
def metaUpd (acc : String × String) (s : PyStmt) : String × String :=
  match s with
  | .assign targets value => targets.foldl (metaUpdTarget value) acc
  | _ => acc

/-- The walk-and-update loop of `_extract_metadata` on a parsed tree,
starting from the defaults. -/
def extract_metadata_tree (tree : PyModule) : String × String :=
  (walkModule tree).foldl metaUpd ("Generated Script", "No description")

/-- `_extract_metadata`: parse failure falls back to the fixed defaults. -/
def extract_metadata (parse : String → Except String PyModule) (code : String) :
    String × String :=
  match parse code with
  | .error _ => ("Generated Script", "No description")
  | .ok tree => extract_metadata_tree tree

/-! ### `detect_external_packages` -/

/-- The standard-library module set of `detect_external_packages`. -/
def STANDARD_LIB : List String :=
  ["os", "sys", "re", "json", "csv", "datetime", "time", "pathlib",
   "argparse", "subprocess", "threading", "multiprocessing",
   "collections", "itertools", "functools", "operator", "typing",
   "math", "random", "string", "io", "hashlib", "base64",
   "urllib", "http", "socket", "ssl", "ftplib", "smtplib",
   "textwrap", "difflib", "pprint", "enum", "dataclasses",
   "typing_extensions", "contextlib", "warnings", "inspect",
   "importlib", "pkgutil", "sysconfig", "platform", "shutil",
   "tempfile", "zipfile", "tarfile", "gzip", "bz2", "lzma",
   "logging", "unittest", "pdb", "traceback", "queue"]

/-- The likely-installed package set of `detect_external_packages`. -/
def LIKELY_INSTALLED : List String := ["PIL", "Pillow", "customtkinter", "tkinter"]

/-- First segment of a dotted module path (`name.split('.')[0]`): the
characters before the first `.`, or the whole name when it has no dot. -/
def topLevelPackage (modname : String) : String :=
  String.mk (modname.toList.takeWhile fun c => !(c == '.'))

/-- Keep a package name iff it is in neither exclusion set. -/
def keepPackage (p : String) : Bool :=
  !(STANDARD_LIB.contains p) && !(LIKELY_INSTALLED.contains p)

/-- Per-statement package collection: an `ast.Import` contributes the kept
top-level names of all its aliases, an `ast.ImportFrom` with a module the
kept top-level name of that module. -/
def pkgStep (s : PyStmt) (acc : List String) : List String :=
  match s with
  | .importStmt names => (names.map topLevelPackage).filter keepPackage ++ acc
  | .importFrom m _ =>
      match m with
      | some mn =>
          if keepPackage (topLevelPackage mn) then topLevelPackage mn :: acc else acc
      | none => acc
  | _ => acc

/-- The raw append-in-walk-order collection of kept top-level package
names from `ast.Import` / `ast.ImportFrom` nodes. -/
def collectPackages (tree : PyModule) : List String :=
  (walkModule tree).foldr pkgStep []

/-- Strict lexicographic comparison of character lists by code point —
the order Python uses to compare strings. -/
def charListLt : List Char → List Char → Bool
  | _, [] => false
  | [], _ :: _ => true
  | a :: as, b :: bs =>
    if a.toNat < b.toNat then true
    else if b.toNat < a.toNat then false
    else charListLt as bs

/-- Strict lexicographic comparison of strings by code point. -/
def strLtB (a b : String) : Bool :=
  charListLt a.toList b.toList

/-- Insert into a strictly sorted list, dropping duplicates. -/
def insertSortedDistinct (x : String) : List String → List String
  | [] => [x]
  | y :: ys =>
    if strLtB x y then x :: y :: ys
    else if strLtB y x then y :: insertSortedDistinct x ys
    else y :: ys

/-- `sorted(set(xs))` for strings: lexicographically sorted distinct
elements. -/
def sortedDedup (l : List String) : List String :=
  l.foldl (fun acc x => insertSortedDistinct x acc) []

/-- `detect_external_packages`: empty list on parse failure, otherwise the
sorted deduplicated kept package names. -/
def detect_external_packages (parse : String → Except String PyModule)
    (code : String) : List String :=
  match parse code with
  | .error _ => []
  | .ok tree => sortedDedup (collectPackages tree)

/-! ### `generate_script` (the orchestrator)

The LLM API (`_make_api_request`) is modelled as an oracle
`api : Nat → Except String String` indexed by attempt number
(`Except.error` = the `APIError` raised branches).  The JSON decoding of
`_parse_json_response` is modelled as `jsonParse : String → Option JsonData`
(`none` = all its fallbacks failed and it raised `APIError`, which
`generate_script` catches in create mode). -/

/-- `MAX_RETRIES` of the source. -/
def MAX_RETRIES : Nat := 3

/-- Whitespace test for `strip()`. -/
def isWsChar (c : Char) : Bool := wsChars.contains c

/-- `str.strip()`: drop leading and trailing whitespace. -/
def strTrim (s : String) : String :=
  String.mk (((s.toList.dropWhile isWsChar).reverse.dropWhile isWsChar).reverse)

/-- The characters after the first triple-backtick fence, when one exists. -/
def afterFirstFence : List Char → Option (List Char)
  | [] => none
  | c :: t =>
    if pMatch "```".toList (c :: t) then some (List.drop 3 (c :: t))
    else afterFirstFence t

/-- The characters before the next triple-backtick fence, `none` when the
fence never closes. -/
def upToFence : List Char → Option (List Char)
  | [] => none
  | c :: t =>
    if pMatch "```".toList (c :: t) then some []
    else (upToFence t).map (c :: ·)

/-- Fenced-code extraction `_extract_code_from_response`: the text between
the first pair of triple-backtick fences, with a leading `python` tag
stripped, stripped of surrounding whitespace; when no complete fenced
block exists, the whole response stripped. -/
def extract_code_from_response (response : String) : String :=
  match afterFirstFence response.toList with
  | none => strTrim response
  | some rest =>
    match upToFence rest with
    | none => strTrim response
    | some inner =>
      strTrim (String.mk (if pMatch "python".toList inner then List.drop 6 inner else inner))

/-- The fields `generate_script` reads from a decoded JSON response
(`data.get("code", "")` etc.); `none` models an absent key. -/
structure JsonData where
  code : Option String
  name : Option String
  description : Option String
  packages : Option (List String)

/-- Generation mode: `"edit" if existing_script else "create"`. -/
inductive Mode where
  | create
  | edit

/-- Outcome of one `generate_script` call: success, the `APIError`
re-raise, the final `ValidationError`, or the implicit `None` return of a
loop that runs zero iterations (unreachable for `MAX_RETRIES = 3`). -/
inductive GenOutcome where
  | ok (code scriptName description : String) (packages : List String)
  | apiError (msg : String)
  | validationError (msg : String)
  | noneReturn

/-- The `ValidationError` message built on the last failed attempt. -/
def failure_message (err : String) : String :=
  "Failed to generate valid script after " ++ toString MAX_RETRIES ++
    " attempts.\nLast error: " ++ err ++
    "\n\nThe AI model struggled to create a valid script. " ++
    "Please try rephrasing your request or try again."

/-- Per-response candidate extraction of `generate_script`: create mode
tries the JSON fields first and falls back to fenced-code extraction plus
metadata/package derivation; edit mode always uses the fallback path. -/
def candidate (parse : String → Except String PyModule)
    (jsonParse : String → Option JsonData) (mode : Mode) (response : String) :
    String × String × String × List String :=
  match mode with
  | .create =>
    match jsonParse response with
    | some d =>
        (d.code.getD "", d.name.getD "Generated Script",
         d.description.getD "No description", d.packages.getD [])
    | none =>
        let c := extract_code_from_response response
        let m := extract_metadata parse c
        (c, m.1, m.2, detect_external_packages parse c)
  | .edit =>
      let c := extract_code_from_response response
      let m := extract_metadata parse c
      (c, m.1, m.2, detect_external_packages parse c)

/-- One loop iteration of `generate_script` at a given attempt number:
`some outcome` = the loop terminates with `outcome` (return or raise),
`none` = validation failed with retries left, continue. -/
def step (parse : String → Except String PyModule)
    (jsonParse : String → Option JsonData) (api : Nat → Except String String)
    (mode : Mode) (attempt : Nat) : Option GenOutcome :=
  match api attempt with
  | .error e => some (.apiError e)
  | .ok response =>
    let c := candidate parse jsonParse mode response
    let v := validate_script parse c.1
    if v.1 then some (.ok c.1 c.2.1 c.2.2.1 c.2.2.2)
    else if MAX_RETRIES ≤ attempt then some (.validationError (failure_message v.2))
    else none

/-- The retry loop over a list of attempt numbers
(`for attempt in range(1, MAX_RETRIES + 1)`). -/
def runAttempts (parse : String → Except String PyModule)
    (jsonParse : String → Option JsonData) (api : Nat → Except String String)
    (mode : Mode) : List Nat → GenOutcome
  | [] => .noneReturn
  | a :: rest =>
    match step parse jsonParse api mode a with
    | some out => out
    | none => runAttempts parse jsonParse api mode rest

/-- `generate_script`: run the loop on attempts `1, …, MAX_RETRIES`. -/
def generate_script (parse : String → Except String PyModule)
    (jsonParse : String → Option JsonData) (api : Nat → Except String String)
    (mode : Mode) : GenOutcome :=
  runAttempts parse jsonParse api mode (List.range' 1 MAX_RETRIES)

/-- The attempt numbers at which the loop body runs (equivalently, the
arguments of the `progress_callback` calls), for a given attempt list. -/
def attemptsFrom (parse : String → Except String PyModule)
    (jsonParse : String → Option JsonData) (api : Nat → Except String String)
    (mode : Mode) : List Nat → List Nat
  | [] => []
  | a :: rest =>
    match step parse jsonParse api mode a with
    | some _ => [a]
    | none => a :: attemptsFrom parse jsonParse api mode rest

/-- The attempt numbers performed by one `generate_script` call. -/
def attemptsMade (parse : String → Except String PyModule)
    (jsonParse : String → Option JsonData) (api : Nat → Except String String)
    (mode : Mode) : List Nat :=
  attemptsFrom parse jsonParse api mode (List.range' 1 MAX_RETRIES)

/-! ### Helper lemmas -/

theorem pMatch_map (f : Char → Char) :
    ∀ sub l : List Char, pMatch sub l = true → pMatch (sub.map f) (l.map f) = true := by
  intro sub
  induction sub with
  | nil => intro l _; simp [pMatch]
  | cons a as ih =>
    intro l h
    cases l with
    | nil => simp [pMatch] at h
    | cons b bs =>
      simp only [pMatch, Bool.and_eq_true, beq_iff_eq] at h
      obtain ⟨hab, hrest⟩ := h
      simp only [List.map_cons, pMatch, Bool.and_eq_true, beq_iff_eq]
      exact ⟨by rw [hab], ih bs hrest⟩

theorem subOccurs_map (f : Char → Char) (sub : List Char) :
    ∀ l : List Char, subOccurs sub l = true → subOccurs (sub.map f) (l.map f) = true := by
  intro l
  induction l with
  | nil =>
    intro h
    simp only [subOccurs, List.isEmpty_iff] at h ⊢
    simp [h]
  | cons c t ih =>
    intro h
    simp only [subOccurs, Bool.or_eq_true] at h ⊢
    rcases h with h | h
    · exact Or.inl (pMatch_map f sub (c :: t) h)
    · exact Or.inr (ih h)

theorem containsSub_lowerStr (code sub : String)
    (hfix : sub.toList.map lowerChar = sub.toList)
    (h : containsSub code sub = true) : containsSub (lowerStr code) sub = true := by
  unfold containsSub at h ⊢
  have := subOccurs_map lowerChar sub.toList code.toList h
  rw [hfix] at this
  exact this

theorem containsQuoted_lowerStr (code lit : String)
    (hlit : lit.toList.map lowerChar = lit.toList)
    (h : containsQuoted code lit = true) :
    containsQuoted (lowerStr code) lit = true := by
  unfold containsQuoted at h ⊢
  simp only [List.any_eq_true] at h ⊢
  obtain ⟨q1, hq1, q2, hq2, hc⟩ := h
  refine ⟨q1, hq1, q2, hq2, ?_⟩
  have hq1f : lowerChar q1 = q1 := by
    simp only [quoteChars, List.mem_cons, List.not_mem_nil, or_false] at hq1
    rcases hq1 with rfl | rfl <;> decide
  have hq2f : lowerChar q2 = q2 := by
    simp only [quoteChars, List.mem_cons, List.not_mem_nil, or_false] at hq2
    rcases hq2 with rfl | rfl <;> decide
  refine containsSub_lowerStr _ _ ?_ hc
  show (q1 :: (lit.toList ++ [q2])).map lowerChar = q1 :: (lit.toList ++ [q2])
  simp only [List.map_cons, List.map_append, List.map_nil, hq1f, hq2f]
  rw [show List.map lowerChar lit.toList = lit.toList from hlit]

theorem check_anti_patterns_fail_of_mem (code : String)
    (m : (String → Bool) × String) (hm : m ∈ anti_patterns)
    (h : m.1 (lowerStr code) = true) : (check_anti_patterns code).1 = false := by
  cases hf : anti_patterns.find? (fun p => p.1 (lowerStr code)) with
  | none =>
    have := List.find?_eq_none.mp hf m hm
    simp [h] at this
  | some p => simp [check_anti_patterns, hf]

theorem quoted_lit_matches (low lit : String) (hlit : lit ∈ quotedDirLits)
    (h : containsQuoted low lit = true) :
    ∃ m ∈ anti_patterns, m.1 low = true := by
  simp only [quotedDirLits, List.mem_cons, List.not_mem_nil, or_false] at hlit
  rcases hlit with h1 | h1 | h1 | h1 | h1 | h1 <;> subst h1
  · exact ⟨(fun l => containsQuoted l "static/", "hardcoded 'static/' directory path"),
      by simp [anti_patterns], h⟩
  · exact ⟨(fun l => containsQuoted l "output/", "hardcoded 'output/' directory path"),
      by simp [anti_patterns], h⟩
  · exact ⟨(fun l => containsQuoted l "outputs/", "hardcoded 'outputs/' directory path"),
      by simp [anti_patterns], h⟩
  · exact ⟨(fun l => containsQuoted l "temp/", "hardcoded 'temp/' directory path"),
      by simp [anti_patterns], h⟩
  · exact ⟨(fun l => containsQuoted l "tmp/", "hardcoded 'tmp/' directory path"),
      by simp [anti_patterns], h⟩
  · exact ⟨(fun l => containsQuoted l "data/", "hardcoded 'data/' directory path"),
      by simp [anti_patterns], h⟩

theorem quotedDirLits_lower :
    ∀ lit ∈ quotedDirLits, lit.toList.map lowerChar = lit.toList := by decide

theorem validate_script_anti_fail (parse : String → Except String PyModule)
    (code : String) (h : (check_anti_patterns code).1 = false) :
    validate_script parse code = check_anti_patterns code := by
  unfold validate_script
  rcases hc : check_anti_patterns code with ⟨b, s⟩
  rw [hc] at h
  simp at h
  subst h
  rfl

theorem validate_script_clean_ok (parse : String → Except String PyModule)
    (code : String) (tree : PyModule) (hc : (check_anti_patterns code).1 = true)
    (hp : parse code = Except.ok tree) :
    validate_script parse code = validate_structure tree := by
  unfold validate_script
  rcases hcc : check_anti_patterns code with ⟨b, s⟩
  rw [hcc] at hc
  simp at hc
  subst hc
  simp [hp]

theorem validate_script_clean_err (parse : String → Except String PyModule)
    (code : String) (e : String) (hc : (check_anti_patterns code).1 = true)
    (hp : parse code = Except.error e) :
    validate_script parse code = (false, "Syntax error: " ++ e) := by
  unfold validate_script
  rcases hcc : check_anti_patterns code with ⟨b, s⟩
  rw [hcc] at hc
  simp at hc
  subst hc
  simp [hp]

/-! ### Concrete instantiations used by witnesses and counterexamples -/

/-- A parser oracle mapping every string to the empty module — the actual
behaviour of `ast.parse` on the empty string. -/
def P_empty : String → Except String PyModule := fun _ => Except.ok ⟨[]⟩

/-- A JSON oracle on which decoding always fails. -/
def J_none : String → Option JsonData := fun _ => none

/-! ### Claim theorems -/

/-- C4: for every code string containing one of the six forbidden quoted
directory literals, `_check_anti_patterns` reports invalid, and
`_validate_script` returns exactly the anti-pattern result without
consulting the parser (the result is the same for every `parse`), so the
structural check is never attempted. -/
theorem anti_pattern_priority (parse : String → Except String PyModule)
    (code lit : String) (hlit : lit ∈ quotedDirLits)
    (h : containsQuoted code lit = true) :
    (check_anti_patterns code).1 = false ∧
    validate_script parse code = check_anti_patterns code := by
  have hlow : containsQuoted (lowerStr code) lit = true :=
    containsQuoted_lowerStr code lit (quotedDirLits_lower lit hlit) h
  obtain ⟨m, hm, hmt⟩ := quoted_lit_matches (lowerStr code) lit hlit hlow
  have hfail := check_anti_patterns_fail_of_mem code m hm hmt
  exact ⟨hfail, validate_script_anti_fail parse code hfail⟩

/-- Witness for C4 at the concrete code `path = 'static/'`. -/
theorem anti_pattern_priority_witness :
    (check_anti_patterns "path = 'static/'").1 = false ∧
    validate_script P_empty "path = 'static/'" =
      check_anti_patterns "path = 'static/'" :=
  anti_pattern_priority P_empty "path = 'static/'" "static/" (by decide) (by decide)

/-- C9: anti-pattern matching is case-insensitive — two code strings with
the same ASCII lowering get the identical result (so `STATIC/` behaves
exactly as `static/`, with the same description), and a forbidden quoted
directory literal present in any letter casing makes the check invalid. -/
theorem anti_pattern_case_insensitive :
    (∀ c₁ c₂ : String, lowerStr c₁ = lowerStr c₂ →
        check_anti_patterns c₁ = check_anti_patterns c₂) ∧
    (∀ code lit, lit ∈ quotedDirLits → containsQuoted (lowerStr code) lit = true →
        (check_anti_patterns code).1 = false) := by
  constructor
  · intro c₁ c₂ h
    unfold check_anti_patterns
    rw [h]
  · intro code lit hlit hlow
    obtain ⟨m, hm, hmt⟩ := quoted_lit_matches (lowerStr code) lit hlit hlow
    exact check_anti_patterns_fail_of_mem code m hm hmt

/-- Witness for C9: `STATIC/` is treated exactly as `static/`, and a
mixed-case `Output/` literal is rejected. -/
theorem anti_pattern_case_insensitive_witness :
    check_anti_patterns "p = 'STATIC/'" = check_anti_patterns "p = 'static/'" ∧
    (check_anti_patterns "q = \"Output/\"").1 = false :=
  ⟨anti_pattern_case_insensitive.1 "p = 'STATIC/'" "p = 'static/'" (by decide),
   anti_pattern_case_insensitive.2 "q = \"Output/\"" "output/" (by decide) (by decide)⟩

/-- C1 (amended): with clean anti-patterns and a successful parse, a
non-empty missing-variable set yields invalid with one comma-joined
message naming exactly the missing required variables; the missing
functions are checked only once every required variable is present, again
reported invalid with one comma-joined message naming exactly the missing
required functions.  (The claim's combined single message across both
kinds does not hold — see the counterexample.) -/
theorem missing_symbols_reported (parse : String → Except String PyModule)
    (code : String) (tree : PyModule)
    (hc : (check_anti_patterns code).1 = true)
    (hp : parse code = Except.ok tree) :
    (missingVarsOf tree ≠ [] →
      validate_script parse code =
        (false, "Missing required variable(s): " ++
          String.intercalate ", " (missingVarsOf tree))) ∧
    (∀ v ∈ required_vars, v ∉ collectAssignedNames tree → v ∈ missingVarsOf tree) ∧
    (missingVarsOf tree = [] → missingFunctionsOf tree ≠ [] →
      validate_script parse code =
        (false, "Missing required function(s): " ++
          String.intercalate ", " (missingFunctionsOf tree))) ∧
    (∀ f ∈ required_functions, f ∉ collectFunctionNames tree → f ∈ missingFunctionsOf tree) := by
  rw [validate_script_clean_ok parse code tree hc hp]
  refine ⟨?_, ?_, ?_, ?_⟩
  · intro hne
    have h1 : (missingVarsOf tree).isEmpty = false := by
      rw [List.isEmpty_eq_false]
      exact hne
    simp [validate_structure, h1]
  · intro v hv hnm
    simp only [missingVarsOf, List.mem_filter, Bool.not_eq_true']
    refine ⟨hv, ?_⟩
    cases hcc : (collectAssignedNames tree).contains v
    · rfl
    · exact absurd (List.elem_iff.mp hcc) hnm
  · intro hve hfe
    have h1 : (missingVarsOf tree).isEmpty = true := by
      rw [List.isEmpty_iff]
      exact hve
    have h2 : (missingFunctionsOf tree).isEmpty = false := by
      rw [List.isEmpty_eq_false]
      exact hfe
    simp [validate_structure, h1, h2]
  · intro f hf hnm
    simp only [missingFunctionsOf, List.mem_filter, Bool.not_eq_true']
    refine ⟨hf, ?_⟩
    cases hcc : (collectFunctionNames tree).contains f
    · rfl
    · exact absurd (List.elem_iff.mp hcc) hnm

/-- Counterexample to C1 as stated: for the empty module (what `ast.parse`
returns on `""`), both required variables and required functions are
missing, yet the single reported message names only the variables — it
does not name `main` or `process_files`. -/
theorem missing_symbols_reported_counterexample :
    (validate_script P_empty "").1 = false ∧
    containsSub (validate_script P_empty "").2 "NAME" = true ∧
    containsSub (validate_script P_empty "").2 "main" = false ∧
    containsSub (validate_script P_empty "").2 "process_files" = false := by decide

/-- A module assigning `NAME`, `DESCRIPTION`, `INPUT_TYPES` and defining
`main`, but missing `PARAMETERS` and `process_files`. -/
def M_partial : PyModule :=
  ⟨[.assign [.name "NAME"] .other,
    .assign [.name "DESCRIPTION"] .other,
    .assign [.name "INPUT_TYPES"] .other,
    .functionDef "main" [.other]]⟩

/-- A parser oracle returning `M_partial` for every input. -/
def P_partial : String → Except String PyModule := fun _ => Except.ok M_partial

/-- Witness for C1 at `M_partial`: `PARAMETERS` missing is reported. -/
theorem missing_symbols_reported_witness :
    validate_script P_partial "x" =
      (false, "Missing required variable(s): PARAMETERS") ∧
    "PARAMETERS" ∈ missingVarsOf M_partial :=
  ⟨(missing_symbols_reported P_partial "x" M_partial (by decide) rfl).1 (by decide),
   (missing_symbols_reported P_partial "x" M_partial (by decide) rfl).2.1
     "PARAMETERS" (by decide) (by decide)⟩

/-- The Python source

```text
def setup():
    NAME = "X"
    DESCRIPTION = "Y"
    INPUT_TYPES = "Z"
    PARAMETERS = []
    def main():
        pass
    def process_files(file_paths, **kwargs):
        pass
```

in which every required variable is assigned and every required function
is defined only inside the body of `setup`, never at the top level. -/
def nested_example_src : String :=
  "def setup():\n    NAME = \"X\"\n    DESCRIPTION = \"Y\"\n    INPUT_TYPES = \"Z\"\n    PARAMETERS = []\n    def main():\n        pass\n    def process_files(file_paths, **kwargs):\n        pass\n"

/-- The syntax tree `ast.parse` produces for `nested_example_src`
(restricted to the node kinds the validator distinguishes). -/
def nested_example_module : PyModule :=
  ⟨[.functionDef "setup"
      [.assign [.name "NAME"] (.const (.str "X")),
       .assign [.name "DESCRIPTION"] (.const (.str "Y")),
       .assign [.name "INPUT_TYPES"] (.const (.str "Z")),
       .assign [.name "PARAMETERS"] .other,
       .functionDef "main" [.other],
       .functionDef "process_files" [.other]]]⟩

/-- A parser oracle with the actual `ast.parse` behaviour on
`nested_example_src`. -/
def P_nested : String → Except String PyModule := fun _ => Except.ok nested_example_module

/-- C5: the source's own comments (and the spec) say only top-level
assignments and top-level function definitions count, but the loop runs
over `ast.walk(tree)`, which descends into every function and class body.
Consequently `nested_example_src`, whose required symbols exist only
nested inside `setup`, is accepted as valid — the code contradicts the
claim (and its own documentation), which demands this input be reported
invalid. -/
theorem nested_definitions_accepted :
    validate_structure nested_example_module = (true, "") ∧
    validate_script P_nested nested_example_src = (true, "") ∧
    (∀ v ∈ required_vars, v ∈ collectAssignedNames nested_example_module) ∧
    (∀ f ∈ required_functions, f ∈ collectFunctionNames nested_example_module) := by decide

/-- `s` assigns a string constant to the variable `v`. -/
def assignsStrTo (s : PyStmt) (v : String) : Bool :=
  match s with
  | .assign targets (.const (.str _)) =>
      targets.any fun t =>
        match t with
        | .name id => id == v
        | _ => false
  | _ => false

/-- `some walked node assigns a string constant to `v``. -/
def hasStrAssignTo (tree : PyModule) (v : String) : Bool :=
  (walkModule tree).any fun s => assignsStrTo s v

theorem foldl_fixed_of_id {α β : Type} (f : β → α → β) (h : ∀ b a, f b a = b) :
    ∀ (l : List α) (b : β), l.foldl f b = b := by
  intro l
  induction l with
  | nil => intro b; rfl
  | cons a t ih =>
    intro b
    rw [List.foldl_cons, h]
    exact ih b

theorem metaUpdTarget_of_not_str (value : PyExpr)
    (h : ∀ sv, value ≠ PyExpr.const (PyConst.str sv))
    (acc : String × String) (t : PyExpr) : metaUpdTarget value acc t = acc := by
  unfold metaUpdTarget
  cases t with
  | name id =>
    cases value with
    | const c =>
      cases c with
      | str sv => exact absurd rfl (h sv)
      | intC n => rfl
      | noneC => rfl
      | boolC b => rfl
    | name id2 => rfl
    | other => rfl
  | const c => cases value <;> rfl
  | other => cases value <;> rfl

theorem foldl_metaUpdTarget_str_fst (sv : String) :
    ∀ (targets : List PyExpr) (acc : String × String),
      (targets.any fun t =>
        match t with
        | PyExpr.name id => id == "NAME"
        | _ => false) = false →
      (targets.foldl (metaUpdTarget (PyExpr.const (PyConst.str sv))) acc).1 = acc.1 := by
  intro targets
  induction targets with
  | nil => intro acc _; rfl
  | cons t rest ih =>
    intro acc h
    simp only [List.any_cons, Bool.or_eq_false_iff] at h
    obtain ⟨h1, h2⟩ := h
    rw [List.foldl_cons, ih _ h2]
    cases t with
    | name id =>
      simp only at h1
      simp only [metaUpdTarget, h1, Bool.false_eq_true, if_false]
      cases hid : id == "DESCRIPTION" <;> simp
    | const c => rfl
    | other => rfl

theorem foldl_metaUpdTarget_str_snd (sv : String) :
    ∀ (targets : List PyExpr) (acc : String × String),
      (targets.any fun t =>
        match t with
        | PyExpr.name id => id == "DESCRIPTION"
        | _ => false) = false →
      (targets.foldl (metaUpdTarget (PyExpr.const (PyConst.str sv))) acc).2 = acc.2 := by
  intro targets
  induction targets with
  | nil => intro acc _; rfl
  | cons t rest ih =>
    intro acc h
    simp only [List.any_cons, Bool.or_eq_false_iff] at h
    obtain ⟨h1, h2⟩ := h
    rw [List.foldl_cons, ih _ h2]
    cases t with
    | name id =>
      simp only at h1
      simp only [metaUpdTarget, h1, Bool.false_eq_true, if_false]
      cases hid : id == "NAME" <;> simp [hid]
    | const c => rfl
    | other => rfl

theorem metaUpd_fst (s : PyStmt) (acc : String × String)
    (h : assignsStrTo s "NAME" = false) : (metaUpd acc s).1 = acc.1 := by
  cases s with
  | assign targets value =>
    cases value with
    | const c =>
      cases c with
      | str sv => exact foldl_metaUpdTarget_str_fst sv targets acc h
      | intC n =>
        show (targets.foldl (metaUpdTarget _) acc).1 = acc.1
        rw [foldl_fixed_of_id _ (metaUpdTarget_of_not_str _ (by intro sv hsv; simp at hsv))]
      | noneC =>
        show (targets.foldl (metaUpdTarget _) acc).1 = acc.1
        rw [foldl_fixed_of_id _ (metaUpdTarget_of_not_str _ (by intro sv hsv; simp at hsv))]
      | boolC b =>
        show (targets.foldl (metaUpdTarget _) acc).1 = acc.1
        rw [foldl_fixed_of_id _ (metaUpdTarget_of_not_str _ (by intro sv hsv; simp at hsv))]
    | name id2 =>
      show (targets.foldl (metaUpdTarget _) acc).1 = acc.1
      rw [foldl_fixed_of_id _ (metaUpdTarget_of_not_str _ (by intro sv hsv; simp at hsv))]
    | other =>
      show (targets.foldl (metaUpdTarget _) acc).1 = acc.1
      rw [foldl_fixed_of_id _ (metaUpdTarget_of_not_str _ (by intro sv hsv; simp at hsv))]
  | functionDef fname body => rfl
  | classDef cname body => rfl
  | importStmt names => rfl
  | importFrom m names => rfl
  | exprStmt e => rfl
  | other => rfl

theorem metaUpd_snd (s : PyStmt) (acc : String × String)
    (h : assignsStrTo s "DESCRIPTION" = false) : (metaUpd acc s).2 = acc.2 := by
  cases s with
  | assign targets value =>
    cases value with
    | const c =>
      cases c with
      | str sv => exact foldl_metaUpdTarget_str_snd sv targets acc h
      | intC n =>
        show (targets.foldl (metaUpdTarget _) acc).2 = acc.2
        rw [foldl_fixed_of_id _ (metaUpdTarget_of_not_str _ (by intro sv hsv; simp at hsv))]
      | noneC =>
        show (targets.foldl (metaUpdTarget _) acc).2 = acc.2
        rw [foldl_fixed_of_id _ (metaUpdTarget_of_not_str _ (by intro sv hsv; simp at hsv))]
      | boolC b =>
        show (targets.foldl (metaUpdTarget _) acc).2 = acc.2
        rw [foldl_fixed_of_id _ (metaUpdTarget_of_not_str _ (by intro sv hsv; simp at hsv))]
    | name id2 =>
      show (targets.foldl (metaUpdTarget _) acc).2 = acc.2
      rw [foldl_fixed_of_id _ (metaUpdTarget_of_not_str _ (by intro sv hsv; simp at hsv))]
    | other =>
      show (targets.foldl (metaUpdTarget _) acc).2 = acc.2
      rw [foldl_fixed_of_id _ (metaUpdTarget_of_not_str _ (by intro sv hsv; simp at hsv))]
  | functionDef fname body => rfl
  | classDef cname body => rfl
  | importStmt names => rfl
  | importFrom m names => rfl
  | exprStmt e => rfl
  | other => rfl

theorem foldl_metaUpd_fst :
    ∀ (l : List PyStmt) (acc : String × String),
      (∀ s ∈ l, assignsStrTo s "NAME" = false) →
      (l.foldl metaUpd acc).1 = acc.1 := by
  intro l
  induction l with
  | nil => intro acc _; rfl
  | cons s rest ih =>
    intro acc h
    rw [List.foldl_cons, ih _ (fun t ht => h t (List.mem_cons_of_mem s ht)),
      metaUpd_fst s acc (h s (List.mem_cons_self s rest))]

theorem foldl_metaUpd_snd :
    ∀ (l : List PyStmt) (acc : String × String),
      (∀ s ∈ l, assignsStrTo s "DESCRIPTION" = false) →
      (l.foldl metaUpd acc).2 = acc.2 := by
  intro l
  induction l with
  | nil => intro acc _; rfl
  | cons s rest ih =>
    intro acc h
    rw [List.foldl_cons, ih _ (fun t ht => h t (List.mem_cons_of_mem s ht)),
      metaUpd_snd s acc (h s (List.mem_cons_self s rest))]

/-- C7: the validator operations are total functions.  A parse failure
makes `_validate_script` return the invalid result with the syntax-error
message (never an exception — totality is inherent in the result type),
and `_extract_metadata` never fails: on a parse error it returns the fixed
defaults, and for any tree with no string-constant assignment to `NAME`
(resp. `DESCRIPTION`) — absent or non-literal — the corresponding default
survives. -/
theorem validator_total_defaults :
    (∀ (parse : String → Except String PyModule) (code e : String),
      (check_anti_patterns code).1 = true → parse code = Except.error e →
      validate_script parse code = (false, "Syntax error: " ++ e)) ∧
    (∀ (parse : String → Except String PyModule) (code e : String),
      parse code = Except.error e →
      extract_metadata parse code = ("Generated Script", "No description")) ∧
    (∀ tree : PyModule, hasStrAssignTo tree "NAME" = false →
      (extract_metadata_tree tree).1 = "Generated Script") ∧
    (∀ tree : PyModule, hasStrAssignTo tree "DESCRIPTION" = false →
      (extract_metadata_tree tree).2 = "No description") := by
  refine ⟨validate_script_clean_err, ?_, ?_, ?_⟩
  · intro parse code e hp
    unfold extract_metadata
    rw [hp]
  · intro tree h
    have h' : ∀ s ∈ walkModule tree, assignsStrTo s "NAME" = false := by
      intro s hs
      by_contra hc
      rw [Bool.not_eq_false] at hc
      have : (walkModule tree).any (fun s => assignsStrTo s "NAME") = true :=
        List.any_eq_true.mpr ⟨s, hs, hc⟩
      rw [hasStrAssignTo] at h
      rw [h] at this
      cases this
    exact foldl_metaUpd_fst (walkModule tree) _ h'
  · intro tree h
    have h' : ∀ s ∈ walkModule tree, assignsStrTo s "DESCRIPTION" = false := by
      intro s hs
      by_contra hc
      rw [Bool.not_eq_false] at hc
      have : (walkModule tree).any (fun s => assignsStrTo s "DESCRIPTION") = true :=
        List.any_eq_true.mpr ⟨s, hs, hc⟩
      rw [hasStrAssignTo] at h
      rw [h] at this
      cases this
    exact foldl_metaUpd_snd (walkModule tree) _ h'

/-- A parser oracle on which parsing always fails — the behaviour of
`ast.parse` on the code `"("`. -/
def P_err : String → Except String PyModule := fun _ => Except.error "invalid syntax"

/-- Witness for C7 on the unparseable code `"("` and the empty module. -/
theorem validator_total_defaults_witness :
    validate_script P_err "(" = (false, "Syntax error: invalid syntax") ∧
    extract_metadata P_err "(" = ("Generated Script", "No description") ∧
    (extract_metadata_tree ⟨[]⟩).1 = "Generated Script" ∧
    (extract_metadata_tree ⟨[]⟩).2 = "No description" :=
  ⟨validator_total_defaults.1 P_err "(" "invalid syntax" (by decide) rfl,
   validator_total_defaults.2.1 P_err "(" "invalid syntax" rfl,
   validator_total_defaults.2.2.1 ⟨[]⟩ (by decide),
   validator_total_defaults.2.2.2 ⟨[]⟩ (by decide)⟩

theorem keepPackage_spec (p : String) (h : keepPackage p = true) :
    p ∉ STANDARD_LIB ∧ p ∉ LIKELY_INSTALLED := by
  simp only [keepPackage, Bool.and_eq_true, Bool.not_eq_true'] at h
  obtain ⟨h1, h2⟩ := h
  constructor
  · intro hm
    have he : STANDARD_LIB.contains p = true := List.elem_iff.mpr hm
    rw [h1] at he
    cases he
  · intro hm
    have he : LIKELY_INSTALLED.contains p = true := List.elem_iff.mpr hm
    rw [h2] at he
    cases he

theorem pkgStep_keep (s : PyStmt) (acc : List String)
    (h : ∀ p ∈ acc, keepPackage p = true) :
    ∀ p ∈ pkgStep s acc, keepPackage p = true := by
  intro p hp
  cases s with
  | importStmt names =>
    simp only [pkgStep, List.mem_append, List.mem_filter] at hp
    rcases hp with ⟨_, hk⟩ | hp
    · exact hk
    · exact h p hp
  | importFrom m names =>
    cases m with
    | some mn =>
      simp only [pkgStep] at hp
      by_cases hk : keepPackage (topLevelPackage mn) = true
      · rw [if_pos hk] at hp
        rcases List.mem_cons.mp hp with rfl | hp
        · exact hk
        · exact h p hp
      · rw [if_neg hk] at hp
        exact h p hp
    | none => exact h p hp
  | assign targets value => exact h p hp
  | functionDef fname body => exact h p hp
  | classDef cname body => exact h p hp
  | exprStmt e => exact h p hp
  | other => exact h p hp

theorem collectPackages_keep (tree : PyModule) :
    ∀ p ∈ collectPackages tree, keepPackage p = true := by
  rw [collectPackages]
  generalize walkModule tree = l
  induction l with
  | nil => intro p hp; cases hp
  | cons s rest ih =>
    intro p hp
    exact pkgStep_keep s (rest.foldr pkgStep []) ih p hp

theorem charListLt_irrefl : ∀ l, charListLt l l = false := by
  intro l
  induction l with
  | nil => rfl
  | cons a as ih => simp [charListLt, Nat.lt_irrefl, ih]

theorem charListLt_trans :
    ∀ a b c, charListLt a b = true → charListLt b c = true →
      charListLt a c = true := by
  intro a
  induction a with
  | nil =>
    intro b c h1 h2
    cases c with
    | nil =>
      cases b with
      | nil => cases h1
      | cons y ys => cases h2
    | cons z zs => rfl
  | cons x xs ih =>
    intro b c h1 h2
    cases b with
    | nil => cases h1
    | cons y ys =>
      cases c with
      | nil => cases h2
      | cons z zs =>
        simp only [charListLt] at h1 h2 ⊢
        by_cases hxy : x.toNat < y.toNat
        · by_cases hyz : y.toNat < z.toNat
          · have : x.toNat < z.toNat := by omega
            simp [this]
          · rw [if_neg hyz] at h2
            by_cases hzy : z.toNat < y.toNat
            · rw [if_pos hzy] at h2; cases h2
            · have : x.toNat < z.toNat := by omega
              simp [this]
        · rw [if_neg hxy] at h1
          by_cases hyx : y.toNat < x.toNat
          · rw [if_pos hyx] at h1; cases h1
          · rw [if_neg hyx] at h1
            by_cases hyz : y.toNat < z.toNat
            · have : x.toNat < z.toNat := by omega
              simp [this]
            · rw [if_neg hyz] at h2
              by_cases hzy : z.toNat < y.toNat
              · rw [if_pos hzy] at h2; cases h2
              · rw [if_neg hzy] at h2
                have hxz : ¬ x.toNat < z.toNat := by omega
                have hzx : ¬ z.toNat < x.toNat := by omega
                rw [if_neg hxz, if_neg hzx]
                exact ih ys zs h1 h2

theorem charListLt_eq_of_not_lt :
    ∀ a b, charListLt a b = false → charListLt b a = false → a = b := by
  intro a
  induction a with
  | nil =>
    intro b h1 h2
    cases b with
    | nil => rfl
    | cons y ys => cases h1
  | cons x xs ih =>
    intro b h1 h2
    cases b with
    | nil => cases h2
    | cons y ys =>
      simp only [charListLt] at h1 h2
      by_cases hxy : x.toNat < y.toNat
      · rw [if_pos hxy] at h1; cases h1
      · rw [if_neg hxy] at h1
        by_cases hyx : y.toNat < x.toNat
        · rw [if_pos hyx] at h2; cases h2
        · rw [if_neg hyx] at h1
          rw [if_neg hyx, if_neg hxy] at h2
          have hn : x.toNat = y.toNat := by omega
          have hx : x = y := Char.ext (UInt32.toNat.inj hn)
          rw [hx, ih ys h1 h2]

theorem strLtB_trans (a b c : String) (h1 : strLtB a b = true)
    (h2 : strLtB b c = true) : strLtB a c = true :=
  charListLt_trans _ _ _ h1 h2

theorem strLtB_eq_of_not_lt (a b : String) (h1 : strLtB a b = false)
    (h2 : strLtB b a = false) : a = b :=
  String.toList_inj.mp (charListLt_eq_of_not_lt _ _ h1 h2)

theorem strLtB_ne (a b : String) (h : strLtB a b = true) : a ≠ b := by
  intro he
  subst he
  rw [strLtB, charListLt_irrefl] at h
  cases h

theorem mem_insertSortedDistinct (x z : String) :
    ∀ l, z ∈ insertSortedDistinct x l ↔ z = x ∨ z ∈ l := by
  intro l
  induction l with
  | nil => simp [insertSortedDistinct]
  | cons y ys ih =>
    simp only [insertSortedDistinct]
    by_cases h1 : strLtB x y = true
    · rw [if_pos h1]
      simp [List.mem_cons]
    · rw [if_neg h1]
      by_cases h2 : strLtB y x = true
      · rw [if_pos h2]
        simp only [List.mem_cons, ih]
        tauto
      · rw [if_neg h2]
        have hxy : x = y :=
          strLtB_eq_of_not_lt x y (Bool.not_eq_true _ ▸ eq_false_of_ne_true h1)
            (eq_false_of_ne_true h2)
        subst hxy
        simp only [List.mem_cons]
        tauto

theorem pairwise_insertSortedDistinct (x : String) :
    ∀ l, l.Pairwise (fun a b => strLtB a b = true) →
      (insertSortedDistinct x l).Pairwise (fun a b => strLtB a b = true) := by
  intro l
  induction l with
  | nil => intro _; simp [insertSortedDistinct]
  | cons y ys ih =>
    intro h
    rw [List.pairwise_cons] at h
    obtain ⟨hy, hys⟩ := h
    simp only [insertSortedDistinct]
    by_cases h1 : strLtB x y = true
    · rw [if_pos h1]
      rw [List.pairwise_cons]
      refine ⟨?_, List.pairwise_cons.mpr ⟨hy, hys⟩⟩
      intro z hz
      rcases List.mem_cons.mp hz with rfl | hz
      · exact h1
      · exact strLtB_trans x y z h1 (hy z hz)
    · rw [if_neg h1]
      by_cases h2 : strLtB y x = true
      · rw [if_pos h2]
        rw [List.pairwise_cons]
        refine ⟨?_, ih hys⟩
        intro z hz
        rcases (mem_insertSortedDistinct x z ys).mp hz with rfl | hz
        · exact h2
        · exact hy z hz
      · rw [if_neg h2]
        exact List.pairwise_cons.mpr ⟨hy, hys⟩

theorem sortedDedup_aux_pairwise :
    ∀ (l : List String) (acc : List String),
      acc.Pairwise (fun a b => strLtB a b = true) →
      (l.foldl (fun acc x => insertSortedDistinct x acc) acc).Pairwise
        (fun a b => strLtB a b = true) := by
  intro l
  induction l with
  | nil => intro acc h; exact h
  | cons s rest ih =>
    intro acc h
    rw [List.foldl_cons]
    exact ih _ (pairwise_insertSortedDistinct s acc h)

theorem sortedDedup_pairwise (l : List String) :
    (sortedDedup l).Pairwise (fun a b => strLtB a b = true) :=
  sortedDedup_aux_pairwise l [] List.Pairwise.nil

theorem sortedDedup_nodup (l : List String) : (sortedDedup l).Nodup :=
  (sortedDedup_pairwise l).imp fun hab => strLtB_ne _ _ hab

theorem sortedDedup_aux_mem :
    ∀ (l : List String) (acc : List String) (z : String),
      z ∈ l.foldl (fun acc x => insertSortedDistinct x acc) acc ↔
        z ∈ acc ∨ z ∈ l := by
  intro l
  induction l with
  | nil => intro acc z; simp
  | cons s rest ih =>
    intro acc z
    rw [List.foldl_cons, ih, mem_insertSortedDistinct]
    simp only [List.mem_cons]
    tauto

theorem mem_sortedDedup (l : List String) (a : String) :
    a ∈ sortedDedup l ↔ a ∈ l := by
  rw [sortedDedup, sortedDedup_aux_mem]
  simp

/-- C8: `detect_external_packages` always returns a lexicographically
sorted, duplicate-free list whose members are kept top-level imported
package names (so in neither the standard-library set nor the
likely-installed set), and returns `[]` when parsing fails.  It is a pure
function of `(parse, code)` (determinism and freedom from exceptions are
inherent in the embedding's type). -/
theorem detect_packages_spec (parse : String → Except String PyModule)
    (code : String) :
    (detect_external_packages parse code).Pairwise (fun a b => strLtB a b = true) ∧
    (detect_external_packages parse code).Nodup ∧
    (∀ p ∈ detect_external_packages parse code,
      p ∉ STANDARD_LIB ∧ p ∉ LIKELY_INSTALLED ∧
      ∀ tree, parse code = Except.ok tree → p ∈ collectPackages tree) ∧
    (∀ e, parse code = Except.error e → detect_external_packages parse code = []) := by
  refine ⟨?_, ?_, ?_, ?_⟩
  · unfold detect_external_packages
    cases hp : parse code with
    | error e => exact List.Pairwise.nil
    | ok tree => exact sortedDedup_pairwise _
  · unfold detect_external_packages
    cases hp : parse code with
    | error e => exact List.nodup_nil
    | ok tree => exact sortedDedup_nodup _
  · intro p hp
    unfold detect_external_packages at hp
    cases hq : parse code with
    | error e => rw [hq] at hp; cases hp
    | ok tree =>
      rw [hq] at hp
      have hmem : p ∈ collectPackages tree := (mem_sortedDedup _ _).mp hp
      have hk := collectPackages_keep tree p hmem
      obtain ⟨h1, h2⟩ := keepPackage_spec p hk
      refine ⟨h1, h2, ?_⟩
      intro tree2 hq2
      cases hq2
      exact hmem
  · intro e hp
    unfold detect_external_packages
    rw [hp]

/-- A module importing `numpy` twice, `os`, and `from cv2.videoio import`. -/
def M_imports : PyModule :=
  ⟨[.importStmt ["numpy", "os"],
    .importFrom (some "cv2.videoio") ["VideoCapture"],
    .importStmt ["numpy"]]⟩

/-- A parser oracle returning `M_imports` for every input. -/
def P_imports : String → Except String PyModule := fun _ => Except.ok M_imports

/-- Witness for C8 on `M_imports` (result `["cv2", "numpy"]`) and a
failing parse. -/
theorem detect_packages_spec_witness :
    detect_external_packages P_imports "i" = ["cv2", "numpy"] ∧
    (detect_external_packages P_imports "i").Pairwise (fun a b => strLtB a b = true) ∧
    (detect_external_packages P_imports "i").Nodup ∧
    ("numpy" ∉ STANDARD_LIB ∧ "numpy" ∉ LIKELY_INSTALLED ∧
      ∀ tree, P_imports "i" = Except.ok tree → "numpy" ∈ collectPackages tree) ∧
    detect_external_packages P_err "i" = [] :=
  ⟨by decide,
   (detect_packages_spec P_imports "i").1,
   (detect_packages_spec P_imports "i").2.1,
   (detect_packages_spec P_imports "i").2.2.1 "numpy" (by decide),
   (detect_packages_spec P_err "i").2.2.2 "invalid syntax" rfl⟩

/-! ### Orchestrator lemmas -/

theorem step_api_error (parse : String → Except String PyModule)
    (jsonParse : String → Option JsonData) (api : Nat → Except String String)
    (mode : Mode) (a : Nat) (e : String) (h : api a = Except.error e) :
    step parse jsonParse api mode a = some (GenOutcome.apiError e) := by
  simp [step, h]

theorem step_invalid_continue (parse : String → Except String PyModule)
    (jsonParse : String → Option JsonData) (api : Nat → Except String String)
    (mode : Mode) (a : Nat) (r : String) (h : api a = Except.ok r)
    (hv : (validate_script parse (candidate parse jsonParse mode r).1).1 = false)
    (hlt : a < MAX_RETRIES) :
    step parse jsonParse api mode a = none := by
  simp [step, h, hv, Nat.not_le.mpr hlt]

theorem step_invalid_last (parse : String → Except String PyModule)
    (jsonParse : String → Option JsonData) (api : Nat → Except String String)
    (mode : Mode) (a : Nat) (r : String) (h : api a = Except.ok r)
    (hv : (validate_script parse (candidate parse jsonParse mode r).1).1 = false)
    (hge : MAX_RETRIES ≤ a) :
    step parse jsonParse api mode a =
      some (GenOutcome.validationError
        (failure_message (validate_script parse (candidate parse jsonParse mode r).1).2)) := by
  simp [step, h, hv, hge]

/-! ### Claim theorems about the orchestrator -/

/-- C3: an `APIError` from the collaborator call is re-raised immediately:
at whatever attempt the call fails, the loop stops there — the outcome is
`apiError` and no later attempt runs; in particular a failure on the very
first call means exactly one attempt total. -/
theorem api_error_short_circuit :
    (∀ (parse : String → Except String PyModule)
       (jsonParse : String → Option JsonData) (api : Nat → Except String String)
       (mode : Mode) (e : String), api 1 = Except.error e →
      generate_script parse jsonParse api mode = GenOutcome.apiError e ∧
      attemptsMade parse jsonParse api mode = [1]) ∧
    (∀ (parse : String → Except String PyModule)
       (jsonParse : String → Option JsonData) (api : Nat → Except String String)
       (mode : Mode) (a : Nat) (rest : List Nat) (e : String),
      api a = Except.error e →
      runAttempts parse jsonParse api mode (a :: rest) = GenOutcome.apiError e ∧
      attemptsFrom parse jsonParse api mode (a :: rest) = [a]) := by
  have hrun : ∀ (parse : String → Except String PyModule)
      (jsonParse : String → Option JsonData) (api : Nat → Except String String)
      (mode : Mode) (a : Nat) (rest : List Nat) (e : String),
      api a = Except.error e →
      runAttempts parse jsonParse api mode (a :: rest) = GenOutcome.apiError e ∧
      attemptsFrom parse jsonParse api mode (a :: rest) = [a] := by
    intro parse jsonParse api mode a rest e h
    have hs := step_api_error parse jsonParse api mode a e h
    constructor
    · simp [runAttempts, hs]
    · simp [attemptsFrom, hs]
  refine ⟨?_, hrun⟩
  intro parse jsonParse api mode e h
  have hr : List.range' 1 MAX_RETRIES = 1 :: [2, 3] := rfl
  constructor
  · show runAttempts parse jsonParse api mode (List.range' 1 MAX_RETRIES) = _
    rw [hr]
    exact (hrun parse jsonParse api mode 1 [2, 3] e h).1
  · show attemptsFrom parse jsonParse api mode (List.range' 1 MAX_RETRIES) = _
    rw [hr]
    exact (hrun parse jsonParse api mode 1 [2, 3] e h).2

/-- An API oracle that always fails. -/
def API_fail : Nat → Except String String :=
  fun _ => Except.error "Could not connect to the API endpoint."

/-- Witness for C3: a first-call failure gives `apiError` after exactly
one attempt. -/
theorem api_error_short_circuit_witness :
    generate_script P_empty J_none API_fail Mode.create =
      GenOutcome.apiError "Could not connect to the API endpoint." ∧
    attemptsMade P_empty J_none API_fail Mode.create = [1] :=
  api_error_short_circuit.1 P_empty J_none API_fail Mode.create
    "Could not connect to the API endpoint." rfl

/-- C2: when every collaborator call succeeds but every candidate fails
validation, `generate_script` performs exactly the attempts 1, 2, 3
(monotonically increasing, bounded by MAX_RETRIES = 3) and then raises a
`ValidationError` whose message embeds the last attempt's validation
error. -/
theorem retry_bound_validation_failure
    (parse : String → Except String PyModule) (jsonParse : String → Option JsonData)
    (api : Nat → Except String String) (mode : Mode)
    (hapi : ∀ k, 1 ≤ k → k ≤ MAX_RETRIES → ∃ r, api k = Except.ok r)
    (hval : ∀ r : String,
      (validate_script parse (candidate parse jsonParse mode r).1).1 = false) :
    ∃ r3, api 3 = Except.ok r3 ∧
      generate_script parse jsonParse api mode =
        GenOutcome.validationError
          (failure_message (validate_script parse (candidate parse jsonParse mode r3).1).2) ∧
      attemptsMade parse jsonParse api mode = [1, 2, 3] := by
  obtain ⟨r1, h1⟩ := hapi 1 (by decide) (by decide)
  obtain ⟨r2, h2⟩ := hapi 2 (by decide) (by decide)
  obtain ⟨r3, h3⟩ := hapi 3 (by decide) (by decide)
  have s1 := step_invalid_continue parse jsonParse api mode 1 r1 h1 (hval r1) (by decide)
  have s2 := step_invalid_continue parse jsonParse api mode 2 r2 h2 (hval r2) (by decide)
  have s3 := step_invalid_last parse jsonParse api mode 3 r3 h3 (hval r3) (by decide)
  have hr : List.range' 1 MAX_RETRIES = [1, 2, 3] := rfl
  refine ⟨r3, h3, ?_, ?_⟩
  · show runAttempts parse jsonParse api mode (List.range' 1 MAX_RETRIES) = _
    rw [hr]
    simp [runAttempts, s1, s2, s3]
  · show attemptsFrom parse jsonParse api mode (List.range' 1 MAX_RETRIES) = _
    rw [hr]
    simp [attemptsFrom, s1, s2, s3]

/-- Witness for C2: an API always answering the empty response, whose
candidate always fails structural validation. -/
theorem retry_bound_validation_failure_witness :
    generate_script P_empty J_none (fun _ => Except.ok "") Mode.create =
      GenOutcome.validationError (failure_message
        "Missing required variable(s): NAME, DESCRIPTION, INPUT_TYPES, PARAMETERS") ∧
    attemptsMade P_empty J_none (fun _ => Except.ok "") Mode.create = [1, 2, 3] := by
  have hval : ∀ r : String,
      (validate_script P_empty (candidate P_empty J_none Mode.create r).1).1 = false := by
    intro r
    rcases hb : check_anti_patterns (candidate P_empty J_none Mode.create r).1 with ⟨b, s⟩
    cases b
    · rw [validate_script_anti_fail _ _ (by rw [hb]), hb]
    · rw [validate_script_clean_ok _ _ ⟨[]⟩ (by rw [hb]) rfl]
      decide
  obtain ⟨r3, hr3, hout, hatt⟩ :=
    retry_bound_validation_failure P_empty J_none (fun _ => Except.ok "") Mode.create
      (fun k _ _ => ⟨"", rfl⟩) hval
  have he : r3 = "" := (Except.ok.inj hr3).symm
  subst he
  refine ⟨?_, hatt⟩
  rw [hout]
  congr 1

/-- C10: in create mode, when the JSON decoding succeeds on every attempt
but the object has no `code` field, the candidate is the empty string,
which fails structural validation (missing required variables); this
consumes all three attempts and ends in a `ValidationError` (never an
`APIError`). -/
theorem json_missing_code_consumes_retries
    (parse : String → Except String PyModule) (jsonParse : String → Option JsonData)
    (api : Nat → Except String String)
    (hapi : ∀ k, 1 ≤ k → k ≤ MAX_RETRIES → ∃ r, api k = Except.ok r)
    (hjson : ∀ r, ∃ d, jsonParse r = some d ∧ d.code = none)
    (hparse : parse "" = Except.ok ⟨[]⟩) :
    generate_script parse jsonParse api Mode.create =
      GenOutcome.validationError (failure_message
        "Missing required variable(s): NAME, DESCRIPTION, INPUT_TYPES, PARAMETERS") ∧
    attemptsMade parse jsonParse api Mode.create = [1, 2, 3] := by
  have hcand : ∀ r, (candidate parse jsonParse Mode.create r).1 = "" := by
    intro r
    obtain ⟨d, hd, hdc⟩ := hjson r
    simp [candidate, hd, hdc]
  have hvs : ∀ r, validate_script parse (candidate parse jsonParse Mode.create r).1 =
      (false, "Missing required variable(s): NAME, DESCRIPTION, INPUT_TYPES, PARAMETERS") := by
    intro r
    rw [hcand r, validate_script_clean_ok parse "" ⟨[]⟩ (by decide) hparse]
    decide
  have hval : ∀ r, (validate_script parse (candidate parse jsonParse Mode.create r).1).1 = false := by
    intro r
    rw [hvs r]
  obtain ⟨r1, h1⟩ := hapi 1 (by decide) (by decide)
  obtain ⟨r2, h2⟩ := hapi 2 (by decide) (by decide)
  obtain ⟨r3, h3⟩ := hapi 3 (by decide) (by decide)
  have s1 := step_invalid_continue parse jsonParse api Mode.create 1 r1 h1 (hval r1) (by decide)
  have s2 := step_invalid_continue parse jsonParse api Mode.create 2 r2 h2 (hval r2) (by decide)
  have s3 := step_invalid_last parse jsonParse api Mode.create 3 r3 h3 (hval r3) (by decide)
  rw [hvs r3] at s3
  have hr : List.range' 1 MAX_RETRIES = [1, 2, 3] := rfl
  constructor
  · show runAttempts parse jsonParse api Mode.create (List.range' 1 MAX_RETRIES) = _
    rw [hr]
    simp [runAttempts, s1, s2, s3]
  · show attemptsFrom parse jsonParse api Mode.create (List.range' 1 MAX_RETRIES) = _
    rw [hr]
    simp [attemptsFrom, s1, s2, s3]

/-- A JSON oracle decoding every response to an object with no fields. -/
def J_codeless : String → Option JsonData := fun _ => some ⟨none, none, none, none⟩

/-- Witness for C10. -/
theorem json_missing_code_consumes_retries_witness :
    generate_script P_empty J_codeless (fun _ => Except.ok "{}") Mode.create =
      GenOutcome.validationError (failure_message
        "Missing required variable(s): NAME, DESCRIPTION, INPUT_TYPES, PARAMETERS") ∧
    attemptsMade P_empty J_codeless (fun _ => Except.ok "{}") Mode.create = [1, 2, 3] :=
  json_missing_code_consumes_retries P_empty J_codeless (fun _ => Except.ok "{}")
    (fun _ _ _ => ⟨"{}", rfl⟩) (fun _ => ⟨⟨none, none, none, none⟩, rfl, rfl⟩) rfl

/-- C6 (amended): only create mode first attempts the JSON fields, falling
back to fenced-code extraction plus `_extract_metadata` /
`detect_external_packages` when the decoding fails; edit mode always uses
the extraction path and never consults the JSON decoding.  (The claim's
"in every mode" does not hold — see the counterexample.) -/
theorem json_first_create_only (parse : String → Except String PyModule)
    (jsonParse : String → Option JsonData) (r : String) :
    (∀ d, jsonParse r = some d →
      candidate parse jsonParse Mode.create r =
        (d.code.getD "", d.name.getD "Generated Script",
         d.description.getD "No description", d.packages.getD [])) ∧
    (jsonParse r = none →
      candidate parse jsonParse Mode.create r =
        (extract_code_from_response r,
         (extract_metadata parse (extract_code_from_response r)).1,
         (extract_metadata parse (extract_code_from_response r)).2,
         detect_external_packages parse (extract_code_from_response r))) ∧
    candidate parse jsonParse Mode.edit r =
      (extract_code_from_response r,
       (extract_metadata parse (extract_code_from_response r)).1,
       (extract_metadata parse (extract_code_from_response r)).2,
       detect_external_packages parse (extract_code_from_response r)) := by
  refine ⟨?_, ?_, ?_⟩
  · intro d hd
    simp [candidate, hd]
  · intro hd
    simp [candidate, hd]
  · simp [candidate]

/-- A JSON oracle decoding every response to
`{"code": "XYZ", "name": "N", "description": "D", "packages": []}`. -/
def J_const : String → Option JsonData :=
  fun _ => some ⟨some "XYZ", some "N", some "D", some []⟩

/-- Counterexample to C6 as stated: in edit mode, although the JSON
decoding succeeds on the response `{}` and yields code `"XYZ"`, the
candidate code is the raw response text, not the JSON `code` field — the
JSON parse is never attempted in edit mode. -/
theorem json_first_create_only_counterexample :
    J_const "{}" = some ⟨some "XYZ", some "N", some "D", some []⟩ ∧
    (candidate P_empty J_const Mode.edit "{}").1 = "{}" ∧
    (candidate P_empty J_const Mode.edit "{}").1 ≠ "XYZ" ∧
    (candidate P_empty J_const Mode.create "{}").1 = "XYZ" :=
  ⟨rfl, by decide, by decide, by decide⟩

/-- Witness for C6 (amended) at concrete oracles. -/
theorem json_first_create_only_witness :
    candidate P_empty J_const Mode.create "{}" = ("XYZ", "N", "D", []) ∧
    candidate P_empty J_none Mode.create "{}" =
      ("{}", "Generated Script", "No description", []) := by
  constructor
  · have h := (json_first_create_only P_empty J_const "{}").1
      ⟨some "XYZ", some "N", some "D", some []⟩ rfl
    rw [h]
    rfl
  · have h := (json_first_create_only P_empty J_none "{}").2.1 rfl
    rw [h]
    decide

end Toolbox
